import Mathlib

/-!
# OmegaOne host verification

A shallow embedding of the plugin-hosting core of `src/host.py` (class
`GameHost`, class `AIAgent`, class `ReloadHandler`) and of the pendulum
plugin `src/games/pendulum/logic.py`, with theorems settling the frozen
claims about the natural-language specification.

Modelling conventions:
* `pymunk.Space` is opaque 2D physics per the spec; we track only what the
  claims mention: gravity and the registration counts of bodies, shapes and
  constraints.  `Space.step` advances internal body state only, so it leaves
  registration untouched.
* Importing a Python module is an external effect; `load_game` takes the
  outcome of `importlib.import_module` / `importlib.reload` as an
  `ImportResult` argument (either the loaded module or a raised exception).
* A plugin module is its attribute set: each of the three hooks is either
  absent (`hasattr` is false) or a function.  A hook call returns the
  in-place mutation it performed on the space before returning or raising,
  plus `some msg` when it raised.
* Wall-clock readings (`time.time()`, `clock.tick(60)`) are inputs, modelled
  as rationals.
* Python `str` is modelled as `List Char`; `str.split`, `in`, `str.strip`,
  `str.endswith` and `len` are embedded below as `pysplit`, `pycontains`,
  `pystrip`, `pyendswith` and `List.length`.
-/

namespace OmegaOne

/-- Registration state of the `pymunk.Space` owned by the host: fixed gravity
plus the number of bodies, shapes and constraints registered via
`space.add`.  The simulation internals are opaque per the spec. -/
structure Space where
  gravity : Int × Int
  bodies : Nat
  shapes : Nat
  constraints : Nat
  deriving DecidableEq, Repr

/-- Mirrors `pymunk.Space(); space.gravity = (0, 900)` as performed in
`GameHost.__init__` and at the top of `GameHost.load_game`. -/
def freshSpace : Space := { gravity := (0, 900), bodies := 0, shapes := 0, constraints := 0 }

/-- Mirrors `space.add(body)` for a rigid body. -/
def Space.addBody (s : Space) : Space := { s with bodies := s.bodies + 1 }

/-- Mirrors `space.add(shape)` for a collision shape. -/
def Space.addShape (s : Space) : Space := { s with shapes := s.shapes + 1 }

/-- Mirrors `space.add(constraint)` for a joint/constraint. -/
def Space.addConstraint (s : Space) : Space := { s with constraints := s.constraints + 1 }

/-- Mirrors `space.step(1/60.0)`: advances the opaque rigid-body state;
registration counts and gravity are unchanged by a step. -/
def Space.step (s : Space) (_dt : ℚ) : Space := s

/-- A loaded plugin module, i.e. its relevant attribute set.  A hook is
`none` exactly when `hasattr(module, name)` is false.  `setup` receives the
space and returns the space after the `space.add` calls it performed before
returning or raising (`some msg` = it raised).  `update` receives the space
(via the module's globals) and `dt`; `draw` only reads. -/
structure GameModule where
  setup? : Option (Space → Space × Option String)
  update? : Option (Space → ℚ → Space × Option String)
  draw? : Option (Space → Option String)

/-- Outcome of `importlib.import_module` / `importlib.reload` for the
plugin's entry module `games.<name>.logic`. -/
inductive ImportResult where
  | ok (m : GameModule)
  | raises (msg : String)

/-- The `GameHost` state fields driven by the claims:
`self.space`, `self.current_game_module`, `self.current_game_name`,
`self.reload_queued` and `self.available_games`. -/
structure HostState where
  space : Space
  current_game_module : Option GameModule
  current_game_name : Option String
  reload_queued : Bool
  available_games : List String

/-- The host state right after the field initialisers in
`GameHost.__init__`, before discovery runs. -/
def initialHost : HostState :=
  { space := freshSpace
    current_game_module := none
    current_game_name := none
    reload_queued := false
    available_games := [] }

/-- Mirrors `GameHost.load_game`: record the selected name, reset the
physics space to a fresh one with gravity (0, 900), then inside the
`try` block import (or reload) the entry module and, if present, run its
`setup(self.space)`; on any exception the handler logs and sets
`self.current_game_module = None`.  The space is not touched by the
exception handler, so in-place mutations `setup` made before raising
persist. -/
def load_game (h : HostState) (game_name : String) (imp : ImportResult) : HostState :=
  let h1 : HostState := { h with current_game_name := some game_name, space := freshSpace }
  match imp with
  | .raises _ => { h1 with current_game_module := none }
  | .ok m =>
    match m.setup? with
    | none => { h1 with current_game_module := some m }
    | some f =>
      match f h1.space with
      | (s1, none) => { h1 with current_game_module := some m, space := s1 }
      | (s1, some _) => { h1 with current_game_module := none, space := s1 }

/-- Mirrors `GameHost.trigger_reload`. -/
def trigger_reload (h : HostState) : HostState := { h with reload_queued := true }

/-- Mirrors `GameHost.process_reload`: if a game name is recorded, reload it
via `load_game`; then clear the queued flag.  The second component is a
ghost trace of the names passed to `load_game` by this call. -/
def process_reload (h : HostState) (imp : ImportResult) : HostState × List String :=
  match h.current_game_name with
  | some name => ({ load_game h name imp with reload_queued := false }, [name])
  | none => ({ h with reload_queued := false }, [])

/-- Mirrors `GameHost.discover_games`: a directory entry of the games root
qualifies when it is a directory containing `logic.py`. -/
structure DirEntry where
  name : String
  isDir : Bool
  hasLogic : Bool
  deriving DecidableEq, Repr

/-- The filesystem state `GameHost.discover_games` consults: whether the
games root exists and its listing, in `os.listdir` order. -/
structure GamesFS where
  rootExists : Bool
  entries : List DirEntry
  deriving DecidableEq, Repr

/-- Mirrors `GameHost.discover_games`: if the games root does not exist the
loop body is skipped and the empty list is returned; otherwise every listed
subdirectory containing `logic.py` is appended in listing order. -/
def discover_games (fs : GamesFS) : List String :=
  if fs.rootExists then
    (fs.entries.filter (fun e => e.isDir && e.hasLogic)).map (fun e => e.name)
  else []

/-- Mirrors the tail of `GameHost.__init__`: run discovery, and load the
first discovered game if there is one.  `imp` gives the import outcome for
whichever entry module gets imported. -/
def hostInit (fs : GamesFS) (imp : String → ImportResult) : HostState :=
  let games := discover_games fs
  let h : HostState := { initialHost with available_games := games }
  match games with
  | [] => h
  | g :: _ => load_game h g (imp g)

/-- External inputs consumed by one iteration of the `GameHost.run` loop:
the milliseconds measured by `clock.tick(60)`, an optional UI selection
event carrying the newly selected name, and the import outcomes used if a
selection load or a reload happens this tick. -/
structure TickInputs where
  elapsed_ms : ℚ
  selection : Option String
  selImport : ImportResult
  reloadImport : ImportResult

/-- Ghost observations of one loop iteration: the computed `time_delta`,
whether/with which `dt` the plugin's `update` hook was called, whether its
call raised, whether `draw` was called, and the names reloaded while
processing the reload flag. -/
structure TickTrace where
  time_delta : ℚ
  updateCalled : Bool
  updateDt : Option ℚ
  updateRaised : Bool
  drawCalled : Bool
  reloadLoads : List String

/-- Mirrors the `UI_SELECTION_LIST_NEW_SELECTION` branch of the event loop:
`if selected != self.current_game_name: self.load_game(selected)`. -/
def handleSelection (h : HostState) (inp : TickInputs) : HostState :=
  match inp.selection with
  | none => h
  | some sel => if some sel ≠ h.current_game_name then load_game h sel inp.selImport else h

/-- Mirrors the update section of the loop body:
`if self.current_game_module and hasattr(module, 'update'):
try: update(1/60.0) except: pass`.  Returns the state plus
(called?, dt passed, raised?). -/
def callUpdate (h : HostState) : HostState × (Bool × Option ℚ × Bool) :=
  match h.current_game_module with
  | none => (h, (false, none, false))
  | some m =>
    match m.update? with
    | none => (h, (false, none, false))
    | some f =>
      let r := f h.space ((1 : ℚ)/60)
      ({ h with space := r.1 }, (true, some ((1 : ℚ)/60), r.2.isSome))

/-- Mirrors the draw section: `if self.current_game_module and
hasattr(module, 'draw'): try: draw(screen) except: pass`.  The call's
outcome (including a raise) is discarded. -/
def callDrawFlag (h : HostState) : Bool :=
  match h.current_game_module with
  | none => false
  | some m => m.draw?.isSome

/-- One iteration of the `while running` loop in `GameHost.run`, in source
order: measure `time_delta`, handle UI events (selection), process the
reload flag if set, step the physics space by the fixed 1/60 s, call the
plugin's `update(1/60.0)` under the swallowing handler, then call `draw`
under the swallowing handler.  UI rendering is external and stateless for
the claims. -/
def tick (h : HostState) (inp : TickInputs) : HostState × TickTrace :=
  let time_delta : ℚ := inp.elapsed_ms / 1000
  let h1 := handleSelection h inp
  let pr := if h1.reload_queued then process_reload h1 inp.reloadImport else (h1, [])
  let h2 := pr.1
  let h3 := { h2 with space := h2.space.step ((1 : ℚ)/60) }
  let upd := callUpdate h3
  let h4 := upd.1
  (h4,
    { time_delta := time_delta
      updateCalled := upd.2.1
      updateDt := upd.2.2.1
      updateRaised := upd.2.2.2
      drawCalled := callDrawFlag h4
      reloadLoads := pr.2 })

/-- Mirrors `setup` in `src/games/pendulum/logic.py`: one
`space.add(body, shape)` for the segment, then one `space.add(pivot)` for
the pin joint; it returns normally. -/
def pendulum_setup (s : Space) : Space × Option String :=
  (((s.addBody).addShape).addConstraint, none)

/-- Mirrors `update` in `src/games/pendulum/logic.py`: a pass-through that
neither mutates nor raises. -/
def pendulum_update (s : Space) (_dt : ℚ) : Space × Option String := (s, none)

/-- Mirrors `draw` in `src/games/pendulum/logic.py`: read-only rendering
that does not raise for a set-up world. -/
def pendulum_draw (_s : Space) : Option String := none

/-- The pendulum plugin's entry module: all three hooks present. -/
def pendulumModule : GameModule :=
  { setup? := some pendulum_setup
    update? := some pendulum_update
    draw? := some pendulum_draw }

/-! ## Python string primitives

`AIAgent.suggest_fix` and `GameHost.run_ai_fix` manipulate Python `str`
values with `split`, `in`, `strip`, `len`; `ReloadHandler.on_modified` uses
`endswith`.  Python strings are modelled as `List Char` and those
operations are embedded directly. -/

/-- Python `s.endswith(suffix)`. -/
def pyendswith (s suffix : List Char) : Bool := suffix.isSuffixOf s

/-- Python `sep in s` (substring membership) for a separator `sep`. -/
def pycontains (sep : List Char) : List Char → Bool
  | [] => sep.isEmpty
  | c :: rest => sep.isPrefixOf (c :: rest) || pycontains sep rest

/-- Worker for `pysplit`: `acc` holds the reversed characters of the
current segment.  At each position, a leftmost non-overlapping occurrence
of `sep` ends the segment and the scan resumes after it.  The recursion is
made structural on a fuel argument (each step consumes at least one input
character, so fuel `s.length` always suffices; the fuel-exhausted branch is
unreachable under that bound). -/
def pysplitAux (sep : List Char) : Nat → List Char → List Char → List (List Char)
  | _, acc, [] => [acc.reverse]
  | 0, acc, c :: rest => [acc.reverse ++ (c :: rest)]
  | fuel + 1, acc, c :: rest =>
    if sep.isPrefixOf (c :: rest) then
      acc.reverse :: pysplitAux sep fuel [] (rest.drop (sep.length - 1))
    else
      pysplitAux sep fuel (c :: acc) rest

/-- Python `s.split(sep)` for a non-empty separator `sep`. -/
def pysplit (sep s : List Char) : List (List Char) := pysplitAux sep s.length [] s

/-- The character class stripped by Python's `str.strip()` (ASCII part). -/
def isPySpace (c : Char) : Bool :=
  c = ' ' || c = '\t' || c = '\n' || c = '\r' || c = '\x0b' || c = '\x0c'

/-- Python `s.lstrip()`. -/
def pylstrip (s : List Char) : List Char := s.dropWhile isPySpace

/-- Python `s.rstrip()`. -/
def pyrstrip (s : List Char) : List Char := (s.reverse.dropWhile isPySpace).reverse

/-- Python `s.strip()`. -/
def pystrip (s : List Char) : List Char := pyrstrip (pylstrip s)

/-! ## File watcher (`ReloadHandler`) -/

/-- The cross-thread state touched by `ReloadHandler.on_modified`:
the handler's own `self.last_reload` timestamp and the host's
`self.reload_queued` flag (the ReloadSignal, set via
`GameHost.trigger_reload`). -/
structure WatcherState where
  last_reload : ℚ
  reload_queued : Bool
  deriving DecidableEq, Repr

/-- A filesystem modification event as delivered to `on_modified`:
the path and the wall-clock reading `time.time()` during its handling
(the two `time.time()` calls in the handler are microseconds apart and
are modelled as one reading). -/
structure PathEvent where
  src_path : List Char
  now : ℚ
  deriving DecidableEq, Repr

/-- Mirrors `ReloadHandler.on_modified`: only `.py` paths are considered;
the debounce accepts the event only when more than 1.0 s has passed since
`self.last_reload`, in which case `last_reload` is updated and
`GameHost.trigger_reload` sets the ReloadSignal. -/
def on_modified (w : WatcherState) (e : PathEvent) : WatcherState :=
  if pyendswith e.src_path ".py".data then
    if e.now - w.last_reload > 1 then
      { last_reload := e.now, reload_queued := true }
    else w
  else w

/-- The acceptance condition of `on_modified`: the event mutates the state
(and raises the ReloadSignal) exactly when this holds. -/
def accepts (w : WatcherState) (e : PathEvent) : Bool :=
  pyendswith e.src_path ".py".data && decide (e.now - w.last_reload > 1)

/-- Number of events of a delivered sequence that the debounce accepts,
threading the handler state left to right. -/
def acceptedCount (w : WatcherState) : List PathEvent → Nat
  | [] => 0
  | e :: es => (if accepts w e then 1 else 0) + acceptedCount (on_modified w e) es

/-- Final watcher state after a delivered sequence of events. -/
def processEvents (w : WatcherState) : List PathEvent → WatcherState
  | [] => w
  | e :: es => processEvents (on_modified w e) es

/-! ## AI patch pipeline (`AIAgent.suggest_fix`, `GameHost.run_ai_fix`) -/

/-- Outcome of `self.model.generate_content(prompt)`: a response text, or a
raised exception with message `str(e)`. -/
inductive GenResult where
  | ok (text : List Char)
  | exc (msg : List Char)

/-- The literal `"Error: GEMINI_API_KEY not found in environment variables."`. -/
def noKeyMsg : List Char := "Error: GEMINI_API_KEY not found in environment variables.".data

/-- The literal prefix of `f"# AI Error: {e}"`. -/
def aiErrPrefix : List Char := "# AI Error: ".data

/-- The fence tag `"```python"`. -/
def fencePy : List Char := "```python".data

/-- The bare fence `"```"`. -/
def fence : List Char := "```".data

/-- The error marker `"Error"` checked by `GameHost.run_ai_fix`. -/
def errMarker : List Char := "Error".data

/-- Mirrors `AIAgent.suggest_fix`: without a configured model it returns the
missing-key error string; with one, it sends the prompt and parses the
response: `text.split("```python")[1].split("```")[0].strip()` when the
response has a python fence, else `text.split("```")[1].split("```")[0].strip()`
when it has a bare fence, else the raw text; a raised exception from the
collaborator becomes `f"# AI Error: {e}"`. -/
def suggest_fix (hasModel : Bool) (gen : GenResult) : List Char :=
  if hasModel = false then noKeyMsg
  else
    match gen with
    | .exc e => aiErrPrefix ++ e
    | .ok text =>
      if pycontains fencePy text then
        pystrip ((pysplit fence ((pysplit fencePy text).getD 1 [])).getD 0 [])
      else if pycontains fence text then
        pystrip ((pysplit fence ((pysplit fence text).getD 1 [])).getD 0 [])
      else text

/-- Mirrors the `_task` body of `GameHost.run_ai_fix` at the level of the
plugin file: read the file, obtain `new_code` from the agent, and write it
back unless the heuristic `"Error" in new_code and len(new_code) < 100`
classifies it as an error; returns the file's content afterwards. -/
def run_ai_fix_file (fileContent : List Char) (hasModel : Bool) (gen : GenResult) : List Char :=
  let new_code := suggest_fix hasModel gen
  if pycontains errMarker new_code = true ∧ new_code.length < 100 then fileContent
  else new_code

/-- The P5 collaborator stub: echoes the source wrapped in a fenced code
block. -/
def wrapFence (source : List Char) : List Char :=
  "```python\n".data ++ source ++ "\n```".data

/-- The backtick character that delimits markdown code fences. -/
def backtick : Char := Char.ofNat 96

/-! ## Concrete sample data used by witnesses and counterexamples -/

/-- A `setup` hook that registers one body and then raises. -/
def badSetup : Space → Space × Option String :=
  fun s => (s.addBody, some "boom in setup")

/-- An entry module whose `setup` adds a body and then raises. -/
def badModule : GameModule :=
  { setup? := some badSetup, update? := none, draw? := none }

/-- An entry module defining none of the three hooks. -/
def bareModule : GameModule :=
  { setup? := none, update? := none, draw? := none }

/-- An `update` hook that raises on every call without mutating the space. -/
def raisingUpdate : Space → ℚ → Space × Option String :=
  fun s _ => (s, some "boom in update")

/-- A `draw` hook that renders without raising. -/
def noopDraw : Space → Option String := fun _ => none

/-- An entry module whose `update` raises on every tick and whose `draw`
succeeds. -/
def raisingModule : GameModule :=
  { setup? := none, update? := some raisingUpdate, draw? := some noopDraw }

/-- A host currently running `raisingModule` as the pendulum plugin. -/
def hostRunning : HostState :=
  { space := freshSpace
    current_game_module := some raisingModule
    current_game_name := some "pendulum"
    reload_queued := false
    available_games := ["pendulum"] }

/-- A host with the no-hook module loaded. -/
def hostBare : HostState :=
  { initialHost with current_game_module := some bareModule }

/-- The host state after `__init__` loaded the pendulum successfully. -/
def hostPendulum : HostState :=
  load_game initialHost "pendulum" (.ok pendulumModule)

/-- Loop inputs with a measured frame time of `ms` milliseconds and no UI
selection event. -/
def noSelInputs (ms : ℚ) : TickInputs :=
  { elapsed_ms := ms
    selection := none
    selImport := .raises "unused"
    reloadImport := .raises "unused" }

/-- The scenario filesystem of the spec: `pendulum/` with `logic.py`,
`scratch/` without it. -/
def pendulumFS : GamesFS :=
  { rootExists := true
    entries := [{ name := "pendulum", isDir := true, hasLogic := true },
                { name := "scratch", isDir := true, hasLogic := false }] }

/-- A filesystem whose games root does not exist. -/
def missingFS : GamesFS :=
  { rootExists := false
    entries := [{ name := "pendulum", isDir := true, hasLogic := true }] }

/-- The watcher state at process start (`self.last_reload = 0`). -/
def watcher0 : WatcherState := { last_reload := 0, reload_queued := false }

/-- A modification event on the pendulum's source at t = 5 s. -/
def sampleEvent : PathEvent :=
  { src_path := "games/pendulum/logic.py".data, now := 5 }

/-- A burst of three modification events inside one instant. -/
def burstEvents : List PathEvent :=
  [{ src_path := "games/pendulum/logic.py".data, now := 0 },
   { src_path := "games/pendulum/logic.py".data, now := 0 },
   { src_path := "games/pendulum/logic.py".data, now := 0 }]

/-! ## Host-loop helper lemmas -/

/-- `load_game` records the requested name and leaves the reload flag and
the discovered list untouched. -/
lemma load_game_fields (h : HostState) (n : String) (imp : ImportResult) :
    (load_game h n imp).reload_queued = h.reload_queued ∧
    (load_game h n imp).available_games = h.available_games ∧
    (load_game h n imp).current_game_name = some n := by
  cases imp with
  | raises msg => simp [load_game]
  | ok m =>
    cases hs : m.setup? with
    | none => simp [load_game, hs]
    | some f =>
      rcases hf : f freshSpace with ⟨s1, exc⟩
      cases exc <;> simp [load_game, hs, hf]

/-- A tick with no selection event and a clear reload flag keeps the loaded
module, keeps the flag clear, and calls `update`/`draw` exactly when the
module has them; when `update` is present its `dt` is the fixed 1/60 and
whether the call raised is what the hook returned. -/
lemma tick_frame (h : HostState) (inp : TickInputs) (m : GameModule)
    (hsel : inp.selection = none) (hq : h.reload_queued = false)
    (hm : h.current_game_module = some m) :
    (tick h inp).1.current_game_module = some m ∧
    (tick h inp).1.reload_queued = false ∧
    (tick h inp).2.updateCalled = m.update?.isSome ∧
    (tick h inp).2.updateDt = (if m.update?.isSome then some ((1 : ℚ)/60) else none) ∧
    (tick h inp).2.drawCalled = m.draw?.isSome ∧
    (∀ f, m.update? = some f →
      (tick h inp).2.updateRaised = (f (h.space.step ((1 : ℚ)/60)) ((1 : ℚ)/60)).2.isSome) := by
  unfold tick handleSelection
  rw [hsel]
  simp only [hq, if_false, Bool.false_eq_true]
  cases hu : m.update? with
  | none =>
    refine ⟨?_, ?_, ?_, ?_, ?_, ?_⟩ <;>
      simp [callUpdate, callDrawFlag, hm, hu, Space.step]
  | some f =>
    refine ⟨?_, ?_, ?_, ?_, ?_, ?_⟩ <;>
      simp [callUpdate, callDrawFlag, hm, hu, Space.step]

/-- C7 (corrected): when the ReloadSignal is set at the start of a tick and
a plugin name is recorded by the host, the tick clears the signal and
performs exactly one reload, of that recorded name — regardless of which
file raised the signal, which the boolean signal cannot even carry.  (When
no name is recorded the signal is cleared with no reload; see the
counterexample.) -/
theorem reload_targets_selected (h : HostState) (inp : TickInputs) (n : String)
    (hname : h.current_game_name = some n) (hq : h.reload_queued = true)
    (hsel : inp.selection = none) :
    (tick h inp).2.reloadLoads = [n] ∧ (tick h inp).1.reload_queued = false := by
  unfold tick handleSelection
  rw [hsel]
  simp only [hq, if_true]
  unfold process_reload
  rw [hname]
  constructor
  · rfl
  · simp [callUpdate, callDrawFlag, Space.step]
    cases hmod : (load_game h n inp.reloadImport).current_game_module with
    | none => simp [callUpdate, hmod]
    | some m =>
      cases hu : m.update? with
      | none => simp [callUpdate, hmod, hu]
      | some f => simp [callUpdate, hmod, hu]

/-- Witness for `reload_targets_selected`: a queued reload on the host
running the pendulum reloads exactly `"pendulum"` and clears the flag. -/
theorem reload_targets_selected_witness :
    (tick { hostPendulum with reload_queued := true } (noSelInputs 16)).2.reloadLoads
        = ["pendulum"] ∧
    (tick { hostPendulum with reload_queued := true } (noSelInputs 16)).1.reload_queued
        = false :=
  reload_targets_selected { hostPendulum with reload_queued := true } (noSelInputs 16)
    "pendulum" rfl rfl rfl

/-- C7 counterexample: with the ReloadSignal set but no plugin name
recorded (as after discovery finds no games), the tick clears the signal
yet performs zero reloads, not exactly one. -/
theorem reload_without_name_cex :
    ({ initialHost with reload_queued := true } : HostState).current_game_name = none ∧
    (tick { initialHost with reload_queued := true } (noSelInputs 16)).2.reloadLoads = [] ∧
    (tick { initialHost with reload_queued := true } (noSelInputs 16)).1.reload_queued = false :=
  ⟨rfl, rfl, rfl⟩

/-- C1 (corrected): any exception during import or `setup` leaves the host
with no loaded plugin (the previous module is not restored), and the
physics world the host keeps stepping is the fresh world of this attempt:
an import failure leaves it exactly `freshSpace`, while a `setup` that
raises leaves whatever state `setup` had built before raising. -/
theorem load_failure_no_plugin (h : HostState) (name msg e : String)
    (m : GameModule) (f : Space → Space × Option String) (s1 : Space)
    (hm : m.setup? = some f) (hf : f freshSpace = (s1, some e)) :
    ((load_game h name (.raises msg)).current_game_module = none ∧
      (load_game h name (.raises msg)).space = freshSpace) ∧
    ((load_game h name (.ok m)).current_game_module = none ∧
      (load_game h name (.ok m)).space = s1) := by
  refine ⟨⟨?_, ?_⟩, ?_, ?_⟩ <;> simp [load_game, hm, hf]

/-- Witness for `load_failure_no_plugin` at `badModule`, whose `setup`
registers one body and then raises. -/
theorem load_failure_no_plugin_witness :
    ((load_game initialHost "bad" (.raises "ImportError")).current_game_module = none ∧
      (load_game initialHost "bad" (.raises "ImportError")).space = freshSpace) ∧
    ((load_game initialHost "bad" (.ok badModule)).current_game_module = none ∧
      (load_game initialHost "bad" (.ok badModule)).space = freshSpace.addBody) :=
  load_failure_no_plugin initialHost "bad" "ImportError" "boom in setup" badModule badSetup
    freshSpace.addBody rfl rfl

/-- C1 counterexample: after loading `badModule` (whose `setup` adds one
body and then raises) the host has no loaded plugin, yet the world it
continues to step has one registered body — not zero as claimed. -/
theorem setup_failure_world_not_empty :
    (load_game initialHost "bad" (.ok badModule)).current_game_module = none ∧
    (load_game initialHost "bad" (.ok badModule)).space.bodies = 1 ∧
    (load_game initialHost "bad" (.ok badModule)).space.bodies ≠ 0 :=
  ⟨rfl, rfl, by decide⟩

/-- C3 (code bug): on a tick whose measured frame time is 50 ms, the loaded
plugin's `update` is called once, but with the constant `dt = 1/60` s
rather than the measured elapsed wall time `50/1000` s that the claim (and
the `GameInterface.update` docstring) prescribe. -/
theorem update_dt_constant :
    (tick hostPendulum (noSelInputs 50)).2.updateCalled = true ∧
    (tick hostPendulum (noSelInputs 50)).2.updateDt = some ((1 : ℚ)/60) ∧
    (tick hostPendulum (noSelInputs 50)).2.time_delta = 50 / 1000 ∧
    ((1 : ℚ)/60) ≠ 50 / 1000 :=
  ⟨rfl, rfl, rfl, by norm_num⟩

/-- C6: an `update` hook that raises on tick K is caught by the host:
`draw` is still invoked on tick K, the module stays loaded (no Failed
transition), and `update` is invoked again on tick K+1. -/
theorem tick_isolation (h : HostState) (inp inp2 : TickInputs) (m : GameModule)
    (f : Space → ℚ → Space × Option String) (g : Space → Option String)
    (s1 : Space) (e : String)
    (hm : h.current_game_module = some m) (hup : m.update? = some f)
    (hdr : m.draw? = some g) (hq : h.reload_queued = false)
    (hsel : inp.selection = none) (hsel2 : inp2.selection = none)
    (hraise : f (h.space.step ((1 : ℚ)/60)) ((1 : ℚ)/60) = (s1, some e)) :
    (tick h inp).2.updateCalled = true ∧
    (tick h inp).2.updateRaised = true ∧
    (tick h inp).2.drawCalled = true ∧
    (tick h inp).1.current_game_module = some m ∧
    (tick (tick h inp).1 inp2).2.updateCalled = true := by
  obtain ⟨hm1, hq1, hc1, _, hd1, hr1⟩ := tick_frame h inp m hsel hq hm
  obtain ⟨_, _, hc2, _, _, _⟩ := tick_frame (tick h inp).1 inp2 m hsel2 hq1 hm1
  refine ⟨?_, ?_, ?_, hm1, ?_⟩
  · rw [hc1, hup]; rfl
  · rw [hr1 f hup, hraise]; rfl
  · rw [hd1, hdr]; rfl
  · rw [hc2, hup]; rfl

/-- Witness for `tick_isolation`: `raisingModule`, whose `update` raises on
every call, still gets `draw` on the same tick and `update` on the next. -/
theorem tick_isolation_witness :
    (tick hostRunning (noSelInputs 16)).2.updateCalled = true ∧
    (tick hostRunning (noSelInputs 16)).2.updateRaised = true ∧
    (tick hostRunning (noSelInputs 16)).2.drawCalled = true ∧
    (tick hostRunning (noSelInputs 16)).1.current_game_module = some raisingModule ∧
    (tick (tick hostRunning (noSelInputs 16)).1 (noSelInputs 16)).2.updateCalled = true :=
  tick_isolation hostRunning (noSelInputs 16) (noSelInputs 16) raisingModule
    raisingUpdate noopDraw freshSpace "boom in update" rfl rfl rfl rfl rfl rfl rfl

/-- C8: discovery over a root holding `pendulum/` (with `logic.py`) and
`scratch/` (without) returns exactly `[pendulum]`, and loading the pendulum
leaves it active with exactly one rigid body and one pin constraint (and
one shape) registered. -/
theorem discover_and_load_pendulum :
    discover_games pendulumFS = ["pendulum"] ∧
    hostPendulum.current_game_module = some pendulumModule ∧
    hostPendulum.space.bodies = 1 ∧
    hostPendulum.space.shapes = 1 ∧
    hostPendulum.space.constraints = 1 :=
  ⟨by decide, rfl, rfl, rfl, rfl⟩

/-- C9: a module missing `setup` still loads successfully with the fresh
world left empty; on a tick, a loaded module missing `update` or `draw` has
the missing hook silently skipped and stays loaded. -/
theorem missing_hooks_skipped (h h2 : HostState) (name : String)
    (m m2 : GameModule) (inp : TickInputs)
    (hsetup : m.setup? = none)
    (hm2 : h2.current_game_module = some m2) (hq2 : h2.reload_queued = false)
    (hsel : inp.selection = none) :
    ((load_game h name (.ok m)).current_game_module = some m ∧
      (load_game h name (.ok m)).space = freshSpace) ∧
    (m2.update? = none → (tick h2 inp).2.updateCalled = false) ∧
    (m2.draw? = none → (tick h2 inp).2.drawCalled = false) ∧
    (tick h2 inp).1.current_game_module = some m2 := by
  obtain ⟨hm1, _, hc, _, hd, _⟩ := tick_frame h2 inp m2 hsel hq2 hm2
  refine ⟨⟨?_, ?_⟩, ?_, ?_, hm1⟩
  · simp [load_game, hsetup]
  · simp [load_game, hsetup]
  · intro hu; rw [hc, hu]; rfl
  · intro hd2; rw [hd, hd2]; rfl

/-- Witness for `missing_hooks_skipped` at `bareModule`, which defines none
of the three hooks. -/
theorem missing_hooks_skipped_witness :
    ((load_game initialHost "bare" (.ok bareModule)).current_game_module = some bareModule ∧
      (load_game initialHost "bare" (.ok bareModule)).space = freshSpace) ∧
    (bareModule.update? = none → (tick hostBare (noSelInputs 16)).2.updateCalled = false) ∧
    (bareModule.draw? = none → (tick hostBare (noSelInputs 16)).2.drawCalled = false) ∧
    (tick hostBare (noSelInputs 16)).1.current_game_module = some bareModule :=
  missing_hooks_skipped initialHost hostBare "bare" bareModule bareModule
    (noSelInputs 16) rfl rfl rfl rfl

/-- C10: when the games root directory does not exist, discovery returns
the empty list (the embedded function is total, mirroring that the
`os.path.exists` guard prevents any exception), and the host completes
initialisation with no plugin loaded. -/
theorem missing_root_no_games (fs : GamesFS) (imp : String → ImportResult)
    (hroot : fs.rootExists = false) :
    discover_games fs = [] ∧
    (hostInit fs imp).current_game_module = none ∧
    (hostInit fs imp).current_game_name = none ∧
    (hostInit fs imp).available_games = [] := by
  have hd : discover_games fs = [] := by simp [discover_games, hroot]
  refine ⟨hd, ?_, ?_, ?_⟩ <;> simp [hostInit, hd, initialHost]

/-- Witness for `missing_root_no_games` at `missingFS`. -/
theorem missing_root_no_games_witness :
    discover_games missingFS = [] ∧
    (hostInit missingFS (fun _ => .raises "unused")).current_game_module = none ∧
    (hostInit missingFS (fun _ => .raises "unused")).current_game_name = none ∧
    (hostInit missingFS (fun _ => .raises "unused")).available_games = [] :=
  missing_root_no_games missingFS (fun _ => .raises "unused") rfl

/-! ## Debounce lemmas -/

/-- A rejected event leaves the handler state and the ReloadSignal
untouched. -/
lemma on_modified_rejected (w : WatcherState) (e : PathEvent)
    (h : accepts w e = false) : on_modified w e = w := by
  unfold accepts at h
  rcases hp : pyendswith e.src_path ".py".data with _ | _
  · simp [on_modified, hp]
  · rw [hp] at h
    simp only [Bool.true_and, decide_eq_false_iff_not] at h
    simp [on_modified, hp, h]

/-- An accepted event records its timestamp and sets the ReloadSignal. -/
lemma on_modified_accepted (w : WatcherState) (e : PathEvent)
    (h : accepts w e = true) :
    on_modified w e = { last_reload := e.now, reload_queued := true } := by
  unfold accepts at h
  rw [Bool.and_eq_true, decide_eq_true_eq] at h
  simp [on_modified, h.1, h.2]

/-- Once the handler's `last_reload` is within one second of every
remaining event, no further event is accepted. -/
lemma acceptedCount_zero (hi : ℚ) :
    ∀ (w : WatcherState) (es : List PathEvent),
      (∀ x ∈ es, x.now ≤ hi) → hi < w.last_reload + 1 → acceptedCount w es = 0 := by
  intro w es
  induction es generalizing w with
  | nil => intro _ _; rfl
  | cons e es ih =>
    intro hb hlast
    have hacc : accepts w e = false := by
      unfold accepts
      have hgt : ¬(e.now - w.last_reload > 1) := by
        have := hb e (List.mem_cons_self e es)
        linarith
      simp [hgt]
    rw [acceptedCount, on_modified_rejected w e hacc,
      if_neg (by simp [hacc]), Nat.zero_add]
    exact ih w (fun x hx => hb x (List.mem_cons_of_mem e hx)) hlast

/-- Any burst of events confined to a window shorter than one second is
accepted at most once, from any starting handler state. -/
lemma acceptedCount_le_one (lo hi : ℚ) (hwin : hi < lo + 1) :
    ∀ (w : WatcherState) (es : List PathEvent),
      (∀ x ∈ es, lo ≤ x.now ∧ x.now ≤ hi) → acceptedCount w es ≤ 1 := by
  intro w es
  induction es generalizing w with
  | nil => intro _; exact Nat.zero_le 1
  | cons x es ih =>
    intro hbounds
    rcases hacc : accepts w x with _ | _
    · rw [acceptedCount, on_modified_rejected w x hacc,
        if_neg (by simp [hacc]), Nat.zero_add]
      exact ih w (fun y hy => hbounds y (List.mem_cons_of_mem x hy))
    · rw [acceptedCount, on_modified_accepted w x hacc, if_pos hacc]
      have hxlo : lo ≤ x.now := (hbounds x (List.mem_cons_self x es)).1
      have hz : acceptedCount { last_reload := x.now, reload_queued := true } es = 0 :=
        acceptedCount_zero hi { last_reload := x.now, reload_queued := true } es
          (fun y hy => (hbounds y (List.mem_cons_of_mem x hy)).2)
          (show hi < x.now + 1 by linarith)
      omega

/-- C5: the debounce accepts an event only when at least 1.0 s (in fact
strictly more than 1.0 s) has elapsed since the last accepted event; a
rejected event has no side effect; and any burst of events confined to a
window shorter than 1.0 s yields at most one acceptance. -/
theorem debounce_policy (w : WatcherState) (e : PathEvent)
    (es : List PathEvent) (lo hi : ℚ)
    (hwin : hi < lo + 1) (hbounds : ∀ x ∈ es, lo ≤ x.now ∧ x.now ≤ hi) :
    (accepts w e = true → e.now - w.last_reload ≥ 1) ∧
    (accepts w e = false → on_modified w e = w) ∧
    acceptedCount w es ≤ 1 := by
  refine ⟨?_, on_modified_rejected w e, acceptedCount_le_one lo hi hwin w es hbounds⟩
  intro ha
  unfold accepts at ha
  rw [Bool.and_eq_true, decide_eq_true_eq] at ha
  linarith [ha.2]

/-- Witness for `debounce_policy`: the initial watcher, one event at t = 5,
and a burst of three events inside the instant t = 0. -/
theorem debounce_policy_witness :
    (accepts watcher0 sampleEvent = true → sampleEvent.now - watcher0.last_reload ≥ 1) ∧
    (accepts watcher0 sampleEvent = false → on_modified watcher0 sampleEvent = watcher0) ∧
    acceptedCount watcher0 burstEvents ≤ 1 :=
  debounce_policy watcher0 sampleEvent burstEvents 0 0 (by simp)
    (by simp [burstEvents])

/-! ## Python string lemmas -/

/-- Every list is a `isPrefixOf`-prefix of itself extended on the right. -/
lemma isPrefixOf_self_append (l r : List Char) : l.isPrefixOf (l ++ r) = true := by
  induction l with
  | nil => simp [List.isPrefixOf]
  | cons a as ih => simp [List.isPrefixOf, ih]

/-- A non-empty separator occurs in any extension of itself. -/
lemma pycontains_self_append (sep v : List Char) (hsep : sep ≠ []) :
    pycontains sep (sep ++ v) = true := by
  cases sep with
  | nil => exact absurd rfl hsep
  | cons c s =>
    show pycontains (c :: s) ((c :: s) ++ v) = true
    rw [List.cons_append, pycontains]
    rw [← List.cons_append, isPrefixOf_self_append]
    rfl

/-- A separator occurs wherever it occurs literally: `u ++ sep ++ v`
contains `sep`. -/
lemma pycontains_of_append (sep u v : List Char) (hsep : sep ≠ []) :
    pycontains sep (u ++ sep ++ v) = true := by
  induction u with
  | nil => simpa using pycontains_self_append sep v hsep
  | cons a u ih =>
    show pycontains sep (a :: (u ++ sep ++ v)) = true
    rw [pycontains, ih]
    simp

/-- If the separator starts with a character absent from `r` and does not
occur in `z`, it does not occur in `r ++ z`. -/
lemma pycontains_append_left (c0 : Char) (sep1 r z : List Char)
    (hc : c0 ∉ r) (hz : pycontains (c0 :: sep1) z = false) :
    pycontains (c0 :: sep1) (r ++ z) = false := by
  induction r with
  | nil => simpa using hz
  | cons c r ih =>
    have hc0 : ¬(c0 = c) := fun hcc => hc (hcc ▸ List.mem_cons_self c r)
    have hcr : c0 ∉ r := fun hmem => hc (List.mem_cons_of_mem c hmem)
    show pycontains (c0 :: sep1) (c :: (r ++ z)) = false
    rw [pycontains, ih hcr]
    simp [List.isPrefixOf, hc0]

/-- If the separator never occurs, the scan returns a single segment. -/
lemma pysplitAux_nomatch (sep : List Char) :
    ∀ (l : List Char) (fuel : Nat) (acc : List Char), l.length ≤ fuel →
      pycontains sep l = false → pysplitAux sep fuel acc l = [acc.reverse ++ l] := by
  intro l
  induction l with
  | nil =>
    intro fuel acc _ _
    cases fuel <;> simp [pysplitAux]
  | cons c rest ih =>
    intro fuel acc hf hnc
    rw [pycontains] at hnc
    rcases Bool.or_eq_false_iff.1 hnc with ⟨hpre, hrest⟩
    match fuel with
    | 0 => exact absurd hf (by simp)
    | f + 1 =>
      rw [pysplitAux, if_neg (by simp [hpre])]
      rw [ih f (c :: acc) (by simp only [List.length_cons] at hf; omega) hrest]
      simp

/-- Scanning past characters that cannot start the separator only moves
them into the accumulator, consuming one unit of fuel each. -/
lemma pysplitAux_skip (c0 : Char) (sep1 : List Char) :
    ∀ (r : List Char), c0 ∉ r →
      ∀ (fuel : Nat) (acc w : List Char), r.length + w.length ≤ fuel →
        pysplitAux (c0 :: sep1) fuel acc (r ++ w)
          = pysplitAux (c0 :: sep1) (fuel - r.length) (r.reverse ++ acc) w := by
  intro r
  induction r with
  | nil => intro _ fuel acc w _; simp
  | cons c r ih =>
    intro hc fuel acc w hf
    have hc0 : ¬(c0 = c) := fun hcc => hc (hcc ▸ List.mem_cons_self c r)
    have hcr : c0 ∉ r := fun hmem => hc (List.mem_cons_of_mem c hmem)
    match fuel with
    | 0 => exact absurd hf (by simp [Nat.add_comm])
    | f + 1 =>
      show pysplitAux (c0 :: sep1) (f + 1) acc (c :: (r ++ w)) = _
      rw [pysplitAux, if_neg (by simp [List.isPrefixOf, hc0])]
      rw [ih hcr f (c :: acc) w (by simp at hf ⊢; omega)]
      simp [Nat.succ_sub_succ]

/-- Scanning a string that begins with the separator emits the current
segment and resumes right after the separator. -/
lemma pysplitAux_head (sep : List Char) (hsep : sep ≠ []) (f : Nat)
    (acc r : List Char) :
    pysplitAux sep (f + 1) acc (sep ++ r) = acc.reverse :: pysplitAux sep f [] r := by
  cases sep with
  | nil => exact absurd rfl hsep
  | cons c0 sep1 =>
    show pysplitAux (c0 :: sep1) (f + 1) acc (c0 :: (sep1 ++ r)) = _
    rw [pysplitAux, if_pos (by rw [← List.cons_append]; exact isPrefixOf_self_append _ r)]
    have hdrop : (sep1 ++ r).drop ((c0 :: sep1).length - 1) = r := by
      simp [List.drop_left sep1 r]
    rw [hdrop]

/-- The backtick is absent from the newline-padded source when it is absent
from the source. -/
lemma backtick_notin_pad (S : List Char) (hbt : backtick ∉ S) :
    backtick ∉ '\n' :: (S ++ ['\n']) := by
  intro hmem
  rcases List.mem_cons.1 hmem with h | h
  · exact absurd h (by decide)
  · rcases List.mem_append.1 h with h2 | h2
    · exact hbt h2
    · rw [List.mem_singleton] at h2
      exact absurd h2 (by decide)

/-- Splitting the fenced response on the python fence isolates the fenced
segment, provided the source contains no backtick. -/
lemma pysplit_fencePy_wrap (S : List Char) (hbt : backtick ∉ S) :
    pysplit fencePy (wrapFence S) = [[], '\n' :: (S ++ ('\n' :: fence))] := by
  have hwrap : wrapFence S = fencePy ++ ('\n' :: (S ++ ('\n' :: fence))) := by
    unfold wrapFence
    rw [(by decide : "```python\n".data = fencePy ++ ['\n']),
      (by decide : "\n```".data = '\n' :: fence)]
    simp [List.append_assoc]
  have hsplitrest : '\n' :: (S ++ ('\n' :: fence)) = ('\n' :: (S ++ ['\n'])) ++ fence := by
    simp [List.append_assoc]
  have hnc : pycontains fencePy ('\n' :: (S ++ ('\n' :: fence))) = false := by
    rw [hsplitrest, (by decide : fencePy = backtick :: "``python".data)]
    exact pycontains_append_left backtick "``python".data ('\n' :: (S ++ ['\n'])) fence
      (backtick_notin_pad S hbt) (by decide)
  unfold pysplit
  rw [hwrap]
  have hlen : (fencePy ++ ('\n' :: (S ++ ('\n' :: fence)))).length
      = ('\n' :: (S ++ ('\n' :: fence))).length + 8 + 1 := by
    rw [List.length_append, (by decide : fencePy.length = 9)]
    omega
  rw [hlen,
    pysplitAux_head fencePy (by decide) (('\n' :: (S ++ ('\n' :: fence))).length + 8) [] _,
    pysplitAux_nomatch fencePy ('\n' :: (S ++ ('\n' :: fence)))
      (('\n' :: (S ++ ('\n' :: fence))).length + 8) [] (by omega) hnc]
  simp

/-- Splitting the fenced segment on the bare fence recovers the
newline-padded source, provided the source contains no backtick. -/
lemma pysplit_fence_seg (S : List Char) (hbt : backtick ∉ S) :
    pysplit fence ('\n' :: (S ++ ('\n' :: fence))) = ['\n' :: (S ++ ['\n']), []] := by
  have hsplitrest : '\n' :: (S ++ ('\n' :: fence)) = ('\n' :: (S ++ ['\n'])) ++ fence := by
    simp [List.append_assoc]
  unfold pysplit
  rw [hsplitrest]
  have hlen : ((('\n' :: (S ++ ['\n'])) ++ fence)).length
      = ('\n' :: (S ++ ['\n'])).length + 3 := by
    rw [List.length_append, (by decide : fence.length = 3)]
  rw [hlen, (by decide : fence = backtick :: "``".data),
    pysplitAux_skip backtick "``".data ('\n' :: (S ++ ['\n']))
      (backtick_notin_pad S hbt) (('\n' :: (S ++ ['\n'])).length + 3) []
      (backtick :: "``".data) (by simp)]
  have h3 : ('\n' :: (S ++ ['\n'])).length + 3 - ('\n' :: (S ++ ['\n'])).length = 2 + 1 := by
    omega
  rw [h3, pysplitAux, if_pos (by decide),
    (by decide : "``".data.drop ((backtick :: "``".data).length - 1) = ([] : List Char))]
  simp [pysplitAux]

/-- Stripping is inert on a string with no leading or trailing whitespace,
even after padding it with one newline on each side. -/
lemma pystrip_newline_pad (S : List Char)
    (hl : S.dropWhile isPySpace = S)
    (hr : S.reverse.dropWhile isPySpace = S.reverse) :
    pystrip ('\n' :: (S ++ ['\n'])) = S := by
  unfold pystrip pylstrip pyrstrip
  rw [List.dropWhile_cons, if_pos (by decide)]
  cases S with
  | nil => simp [isPySpace]
  | cons a S2 =>
    have ha : isPySpace a = false := by
      rcases hh : isPySpace a with _ | _
      · rfl
      · exfalso
        rw [List.dropWhile_cons, if_pos (by rw [hh])] at hl
        have hlen := congrArg List.length hl
        have hle := (List.dropWhile_suffix (l := S2) isPySpace).length_le
        simp only [List.length_cons] at hlen
        omega
    rw [List.cons_append, List.dropWhile_cons, if_neg (by simp [ha]),
      ← List.cons_append, List.reverse_append]
    simp only [List.reverse_cons, List.reverse_nil, List.nil_append, List.singleton_append]
    rw [List.dropWhile_cons, if_pos (by decide), ← List.reverse_cons, hr]
    exact List.reverse_reverse _

/-- Parsing the echoed fenced response recovers the source exactly, for a
source with no backtick and no surrounding whitespace. -/
lemma suggest_fix_wrap (S : List Char) (hbt : backtick ∉ S)
    (hl : S.dropWhile isPySpace = S)
    (hr : S.reverse.dropWhile isPySpace = S.reverse) :
    suggest_fix true (.ok (wrapFence S)) = S := by
  have hguardPy : pycontains fencePy (wrapFence S) = true := by
    have hwrap : wrapFence S = fencePy ++ ('\n' :: (S ++ ('\n' :: fence))) := by
      unfold wrapFence
      rw [(by decide : "```python\n".data = fencePy ++ ['\n']),
        (by decide : "\n```".data = '\n' :: fence)]
      simp [List.append_assoc]
    rw [hwrap]
    exact pycontains_self_append fencePy _ (by decide)
  simp only [suggest_fix]
  rw [if_neg (by simp), if_pos hguardPy, pysplit_fencePy_wrap S hbt]
  simp only [List.getD_cons_succ, List.getD_cons_zero]
  rw [pysplit_fence_seg S hbt]
  simp only [List.getD_cons_zero]
  exact pystrip_newline_pad S hl hr

/-- C2 (corrected): with a collaborator stub that echoes the source wrapped
in a fenced code block, the plugin file afterwards holds the fenced content
with surrounding whitespace stripped; for a source with no leading or
trailing whitespace, no backtick, and not matching the short-error
heuristic, the file is byte-identical to the source. -/
theorem patch_roundtrip_trimmed (old S : List Char)
    (hl : S.dropWhile isPySpace = S)
    (hr : S.reverse.dropWhile isPySpace = S.reverse)
    (hbt : backtick ∉ S)
    (hguard : ¬(pycontains errMarker S = true ∧ S.length < 100)) :
    run_ai_fix_file old true (.ok (wrapFence S)) = S := by
  have hfix := suggest_fix_wrap S hbt hl hr
  simp only [run_ai_fix_file]
  rw [hfix, if_neg hguard]

/-- Witness for `patch_roundtrip_trimmed` at the one-line source
`"x = 1"`. -/
theorem patch_roundtrip_trimmed_witness :
    run_ai_fix_file "orig".data true (.ok (wrapFence "x = 1".data)) = "x = 1".data :=
  patch_roundtrip_trimmed "orig".data "x = 1".data (by decide) (by decide)
    (by decide) (by decide)

/-- C2 counterexample: for the source `"x = 1\n"` — which ends in the
newline every conventional source file ends in — the echoed fenced
response is written back as `"x = 1"`: the file is not byte-identical to
the source. -/
theorem patch_roundtrip_cex :
    run_ai_fix_file "x = 1\n".data true (.ok (wrapFence "x = 1\n".data)) = "x = 1".data ∧
    run_ai_fix_file "x = 1\n".data true (.ok (wrapFence "x = 1\n".data)) ≠ "x = 1\n".data := by
  constructor <;> decide

/-- C4 (corrected): an unreachable collaborator (no API key) yields the
fixed short missing-key payload and the file is unchanged; a collaborator
exception yields the payload `"# AI Error: " ++ msg`, and the file stays
unchanged when that payload is shorter than 100 characters (message
shorter than 88); any payload failing the short-error test is written
unconditionally. -/
theorem patch_error_heuristic (old msg : List Char) (gen : GenResult)
    (hshort : msg.length < 88) :
    run_ai_fix_file old false gen = old ∧
    run_ai_fix_file old true (.exc msg) = old ∧
    (¬(pycontains errMarker (suggest_fix true gen) = true ∧
        (suggest_fix true gen).length < 100) →
      run_ai_fix_file old true gen = suggest_fix true gen) := by
  refine ⟨?_, ?_, ?_⟩
  · have h1 : suggest_fix false gen = noKeyMsg := by simp [suggest_fix]
    simp only [run_ai_fix_file]
    rw [h1, if_pos ⟨by decide, by decide⟩]
  · have h2 : suggest_fix true (.exc msg) = aiErrPrefix ++ msg := by simp [suggest_fix]
    simp only [run_ai_fix_file]
    rw [h2, if_pos ?_]
    constructor
    · have hsplitp : aiErrPrefix ++ msg
          = "# AI ".data ++ errMarker ++ (": ".data ++ msg) := by
        rw [(by decide : aiErrPrefix = "# AI ".data ++ errMarker ++ ": ".data)]
        simp [List.append_assoc]
      rw [hsplitp]
      exact pycontains_of_append errMarker "# AI ".data (": ".data ++ msg) (by decide)
    · rw [List.length_append, (by decide : aiErrPrefix.length = 12)]
      omega
  · intro hg
    simp only [run_ai_fix_file]
    rw [if_neg hg]

/-- Witness for `patch_error_heuristic` with a short exception message and
an unfenced successful response. -/
theorem patch_error_heuristic_witness :
    run_ai_fix_file "orig".data false (.ok "hello".data) = "orig".data ∧
    run_ai_fix_file "orig".data true (.exc "boom".data) = "orig".data ∧
    (¬(pycontains errMarker (suggest_fix true (.ok "hello".data)) = true ∧
        (suggest_fix true (.ok "hello".data)).length < 100) →
      run_ai_fix_file "orig".data true (.ok "hello".data)
        = suggest_fix true (.ok "hello".data)) :=
  patch_error_heuristic "orig".data "boom".data (.ok "hello".data) (by decide)

/-- C4 counterexample: a collaborator exception with an 88-character
message yields the 100-character payload `"# AI Error: xxx…"`, which fails
the `len < 100` test and is therefore written — the file does not stay
unchanged. -/
theorem long_error_written_cex :
    (suggest_fix true (.exc (List.replicate 88 'x'))).length = 100 ∧
    run_ai_fix_file "orig".data true (.exc (List.replicate 88 'x'))
      = aiErrPrefix ++ List.replicate 88 'x' ∧
    run_ai_fix_file "orig".data true (.exc (List.replicate 88 'x')) ≠ "orig".data := by
  refine ⟨by decide, by decide, by decide⟩

end OmegaOne
